import Mathlib

/-!
Shallow embedding of `pixi-input-map` (`src/index.ts`): the `PixiInputMap`
class tracks currently pressed keys and mouse buttons in a string-keyed
`keys` object and holds named action bindings in an `actions` object.
JS objects are modelled as association lists of string keys; JS property
assignment coerces a numeric key to its decimal string representation.
-/

/-- The TS type `string | number`: a keyboard key label or a mouse-button
ordinal, as stored in the `actions` object and carried by the raw events.
Mouse buttons are small non-negative integers. -/
inductive KeyOrButton where
  | str (s : String)
  | num (n : Nat)
deriving DecidableEq

/-- JS coercion of a `string | number` value to an object property key:
a number becomes its decimal string representation. -/
def KeyOrButton.toKey : KeyOrButton → String
  | .str s => s
  | .num n => toString n

/-- JS truthiness of a `string | number` value: the empty string and the
number `0` are falsy, every other value is truthy. -/
def KeyOrButton.truthy : KeyOrButton → Bool
  | .str s => !(s == "")
  | .num n => !(n == 0)

/-- Property read `obj[k]` on a JS object modelled as an association list;
`none` models `undefined` for an absent property. -/
def objGet (m : List (String × α)) (k : String) : Option α :=
  (m.find? fun p => p.1 == k).map fun p => p.2

/-- Property write `obj[k] = v` on a JS object: overwrites the value in
place if the property already exists, otherwise appends a new property. -/
def objSet (m : List (String × α)) (k : String) (v : α) : List (String × α) :=
  if m.any (fun p => p.1 == k) then
    m.map fun p => if p.1 == k then (k, v) else p
  else m ++ [(k, v)]

/-- A DOM input event as seen by the listeners: a `KeyboardEvent` carrying
`event.key` or a `MouseEvent` carrying `event.button`. -/
inductive InputEvent where
  | keyboard (key : String)
  | mouse (button : Nat)
deriving DecidableEq

/-- The property key the listeners store an event under:
`event instanceof KeyboardEvent ? event.key : event.button`, with the
button number coerced by JS to its decimal string. -/
def InputEvent.storedKey : InputEvent → String
  | .keyboard key => key
  | .mouse button => toString button

/-- The state of a `PixiInputMap` instance: the `keys` pressed-state object
and the `actions` binding object. -/
structure PixiInputMap where
  keys : List (String × Bool)
  actions : List (String × KeyOrButton)
deriving DecidableEq

namespace PixiInputMap

/-- A freshly constructed instance: both objects start empty. -/
def new : PixiInputMap := ⟨[], []⟩

/-- `_keyOrMouseButtonDownListener`: sets the event's key or button to
`true` in the `keys` object. -/
def keyOrMouseButtonDownListener (st : PixiInputMap) (e : InputEvent) :
    PixiInputMap :=
  { st with keys := objSet st.keys e.storedKey true }

/-- `_keyOrMouseButtonUpListener`: sets the event's key or button to
`false` in the `keys` object. -/
def keyOrMouseButtonUpListener (st : PixiInputMap) (e : InputEvent) :
    PixiInputMap :=
  { st with keys := objSet st.keys e.storedKey false }

/-- `_getActionKeyOrMouseButton`: `return this.actions[name]`, `undefined`
(`none`) when there is no action with that name. -/
def getActionKeyOrMouseButton (st : PixiInputMap) (name : String) :
    Option KeyOrButton :=
  objGet st.actions name

/-- `stop`: removes the four event listeners (outside the state model) and
resets the `keys` object to a fresh empty object. -/
def stop (st : PixiInputMap) : PixiInputMap :=
  { st with keys := [] }

/-- `addAction`: `this.actions[name] = event`, overwriting any previous
binding for `name`. -/
def addAction (st : PixiInputMap) (name : String) (event : KeyOrButton) :
    PixiInputMap :=
  { st with actions := objSet st.actions name event }

/-- `actionPress`: looks up the binding for `name`;
`if (!actionKeyOrMouseButton) return;` — a missing or falsy binding is a
no-op — otherwise sets the bound identifier's entry to `true`. -/
def actionPress (st : PixiInputMap) (name : String) : PixiInputMap :=
  match st.getActionKeyOrMouseButton name with
  | none => st
  | some v =>
    if v.truthy then { st with keys := objSet st.keys v.toKey true } else st

/-- `actionRelease`: same lookup and falsy guard as `actionPress`, but sets
the bound identifier's entry to `false`. -/
def actionRelease (st : PixiInputMap) (name : String) : PixiInputMap :=
  match st.getActionKeyOrMouseButton name with
  | none => st
  | some v =>
    if v.truthy then { st with keys := objSet st.keys v.toKey false } else st

/-- `isActionPressed`: looks up the binding for `name`; a missing or falsy
binding returns `false`; otherwise `return this.keys[b] || false`. -/
def isActionPressed (st : PixiInputMap) (name : String) : Bool :=
  match st.getActionKeyOrMouseButton name with
  | none => false
  | some v =>
    if v.truthy then (objGet st.keys v.toKey).getD false else false

/-- `isKeyPressed`: `return this.keys[key]` — `true`, `false`, or
`undefined` (`none`) when the key has never been observed. -/
def isKeyPressed (st : PixiInputMap) (key : String) : Option Bool :=
  objGet st.keys key

/-- `isMouseButtonPressed`: `return this.keys[button]` — the numeric button
is coerced by JS to its decimal string property key. -/
def isMouseButtonPressed (st : PixiInputMap) (button : Nat) : Option Bool :=
  objGet st.keys (toString button)

/-- `isAnythingPressed`:
`return Object.values(this.keys).some((key) => key === true)`. -/
def isAnythingPressed (st : PixiInputMap) : Bool :=
  st.keys.any fun p => p.2 == true

/-- `isActionPressed` with the mutable instance threaded through
explicitly, to state that the method reads `this` but never writes it. -/
def isActionPressedM (st : PixiInputMap) (name : String) :
    Bool × PixiInputMap :=
  match st.getActionKeyOrMouseButton name with
  | none => (false, st)
  | some v =>
    if v.truthy then ((objGet st.keys v.toKey).getD false, st)
    else (false, st)

/-- `isKeyPressed` with the mutable instance threaded through explicitly. -/
def isKeyPressedM (st : PixiInputMap) (key : String) :
    Option Bool × PixiInputMap :=
  (objGet st.keys key, st)

/-- `isMouseButtonPressed` with the mutable instance threaded through
explicitly. -/
def isMouseButtonPressedM (st : PixiInputMap) (button : Nat) :
    Option Bool × PixiInputMap :=
  (objGet st.keys (toString button), st)

/-- `isAnythingPressed` with the mutable instance threaded through
explicitly. -/
def isAnythingPressedM (st : PixiInputMap) : Bool × PixiInputMap :=
  ((st.keys.any fun p => p.2 == true), st)

end PixiInputMap

/-- The raw query matching an event's identifier: a keyboard event's key is
queried with `isKeyPressed`, a mouse event's button with
`isMouseButtonPressed`. -/
def InputEvent.query (e : InputEvent) (st : PixiInputMap) : Option Bool :=
  match e with
  | .keyboard key => st.isKeyPressed key
  | .mouse button => st.isMouseButtonPressed button

/-- States reachable from a fresh instance by the state-mutating
operations of the class (`start` registers listeners only and does not
touch either object). -/
inductive Reachable : PixiInputMap → Prop where
  | init : Reachable PixiInputMap.new
  | down (e : InputEvent) : Reachable st →
      Reachable (st.keyOrMouseButtonDownListener e)
  | up (e : InputEvent) : Reachable st →
      Reachable (st.keyOrMouseButtonUpListener e)
  | stop : Reachable st → Reachable st.stop
  | addAction (n : String) (v : KeyOrButton) : Reachable st →
      Reachable (st.addAction n v)
  | actionPress (n : String) : Reachable st →
      Reachable (st.actionPress n)
  | actionRelease (n : String) : Reachable st →
      Reachable (st.actionRelease n)

/-- Reading back the property just written returns the written value. -/
theorem objGet_objSet_self (m : List (String × α)) (k : String) (v : α) :
    objGet (objSet m k v) k = some v := by
  unfold objSet
  by_cases h : m.any (fun p => p.1 == k) = true
  · rw [if_pos h]
    induction m with
    | nil => simp at h
    | cons p rest ih =>
      by_cases hp : p.1 = k
      · simp [objGet, List.find?, hp]
      · have hb : (p.1 == k) = false := by simp [hp]
        have hrest : rest.any (fun p => p.1 == k) = true := by
          simpa [List.any_cons, hb] using h
        simpa [objGet, List.find?, hb] using ih hrest
  · rw [if_neg h]
    have h' : ∀ p ∈ m, ¬ (p.1 == k) = true := by
      intro p hp hpk
      exact h (List.any_eq_true.2 ⟨p, hp, hpk⟩)
    induction m with
    | nil => simp [objGet, List.find?]
    | cons p rest ih =>
      have hb : (p.1 == k) = false := by
        have := h' p (List.mem_cons_self p rest)
        simpa using this
      have hrest : ¬ rest.any (fun p => p.1 == k) = true := by
        intro hc
        rcases List.any_eq_true.1 hc with ⟨q, hq, hqk⟩
        exact h' q (List.mem_cons_of_mem p hq) hqk
      have h'' : ∀ q ∈ rest, ¬ (q.1 == k) = true := fun q hq =>
        h' q (List.mem_cons_of_mem p hq)
      simpa [objGet, List.find?, hb] using ih hrest h''

/-- Overwriting an existing property in place leaves every other property
read unchanged. -/
theorem objGet_map_replace_ne (m : List (String × α)) (k k' : String)
    (v : α) (h : k' ≠ k) :
    objGet (m.map fun p => if p.1 == k then (k, v) else p) k'
      = objGet m k' := by
  induction m with
  | nil => rfl
  | cons p rest ih =>
    by_cases hp : p.1 = k
    · have hkk' : (k == k') = false := by simp [Ne.symm h]
      have hpk' : (p.1 == k') = false := by simp [hp, Ne.symm h]
      have hpk : (p.1 == k) = true := by simp [hp]
      simpa [objGet, List.find?, hpk, hkk', hpk'] using ih
    · have hpk : (p.1 == k) = false := by simp [hp]
      by_cases hq : p.1 = k'
      · have hpk' : (p.1 == k') = true := by simp [hq]
        simp [objGet, List.find?, hpk, hpk']
      · have hpk' : (p.1 == k') = false := by simp [hq]
        simpa [objGet, List.find?, hpk, hpk'] using ih

/-- Appending a fresh property leaves every other property read
unchanged. -/
theorem objGet_append_single_ne (m : List (String × α)) (k k' : String)
    (v : α) (h : k' ≠ k) :
    objGet (m ++ [(k, v)]) k' = objGet m k' := by
  induction m with
  | nil =>
    have hkk' : (k == k') = false := by simp [Ne.symm h]
    simp [objGet, List.find?, hkk']
  | cons p rest ih =>
    by_cases hq : p.1 = k'
    · simp [objGet, List.find?, hq]
    · have hpk' : (p.1 == k') = false := by simp [hq]
      simpa [objGet, List.find?, hpk'] using ih

/-- Writing one property leaves every other property unchanged. -/
theorem objGet_objSet_ne (m : List (String × α)) (k k' : String) (v : α)
    (h : k' ≠ k) :
    objGet (objSet m k v) k' = objGet m k' := by
  unfold objSet
  by_cases ha : m.any (fun p => p.1 == k) = true
  · rw [if_pos ha]
    exact objGet_map_replace_ne m k k' v h
  · rw [if_neg ha]
    exact objGet_append_single_ne m k k' v h

/-- Property writes keep the list of property names duplicate-free. -/
theorem objSet_keys_nodup (m : List (String × α)) (k : String) (v : α)
    (h : (m.map Prod.fst).Nodup) :
    ((objSet m k v).map Prod.fst).Nodup := by
  unfold objSet
  by_cases ha : m.any (fun p => p.1 == k) = true
  · rw [if_pos ha]
    have hmap : (List.map (fun p => if p.1 == k then (k, v) else p) m).map
        Prod.fst = m.map Prod.fst := by
      rw [List.map_map]
      refine List.map_congr_left ?_
      intro p hp
      by_cases hpk : p.1 = k
      · simp [hpk]
      · simp [hpk]
    rw [hmap]
    exact h
  · rw [if_neg ha]
    rw [List.map_append, List.nodup_append]
    refine ⟨h, List.nodup_singleton k, ?_⟩
    intro a hmem hmem'
    have hak : a = k := by simpa using hmem'
    rcases List.mem_map.1 hmem with ⟨p, hp, hpa⟩
    apply ha
    refine List.any_eq_true.2 ⟨p, hp, ?_⟩
    simp [hpa, hak]

/-- The query matching an event reads the property the listeners store
that event under. -/
theorem InputEvent.query_eq_objGet (e : InputEvent) (st : PixiInputMap) :
    e.query st = objGet st.keys e.storedKey := by
  cases e <;> rfl

/-- The down listener writes only the `keys` object. -/
theorem actions_down (st : PixiInputMap) (e : InputEvent) :
    (st.keyOrMouseButtonDownListener e).actions = st.actions := rfl

/-- The up listener writes only the `keys` object. -/
theorem actions_up (st : PixiInputMap) (e : InputEvent) :
    (st.keyOrMouseButtonUpListener e).actions = st.actions := rfl

/-- `stop` writes only the `keys` object. -/
theorem actions_stop (st : PixiInputMap) :
    st.stop.actions = st.actions := rfl

/-- `actionPress` writes only the `keys` object. -/
theorem actions_actionPress (st : PixiInputMap) (name : String) :
    (st.actionPress name).actions = st.actions := by
  unfold PixiInputMap.actionPress
  cases st.getActionKeyOrMouseButton name with
  | none => rfl
  | some v =>
    by_cases hv : v.truthy <;> simp [hv]

/-- `actionRelease` writes only the `keys` object. -/
theorem actions_actionRelease (st : PixiInputMap) (name : String) :
    (st.actionRelease name).actions = st.actions := by
  unfold PixiInputMap.actionRelease
  cases st.getActionKeyOrMouseButton name with
  | none => rfl
  | some v =>
    by_cases hv : v.truthy <;> simp [hv]

/-- In every reachable state the `actions` object holds at most one
binding per action name. -/
theorem reachable_actions_nodup (st : PixiInputMap) (h : Reachable st) :
    (st.actions.map Prod.fst).Nodup := by
  induction h with
  | init => simp [PixiInputMap.new]
  | down e _ ih => exact ih
  | up e _ ih => exact ih
  | stop _ ih => exact ih
  | addAction n v _ ih => exact objSet_keys_nodup _ n v ih
  | actionPress n _ ih => rw [actions_actionPress]; exact ih
  | actionRelease n _ ih => rw [actions_actionRelease]; exact ih

/-- Claim C1: the claim requires that an action bound to mouse-button
ordinal 0 and pressed reports pressed, with falsy identifiers not treated
as unbound. The code's falsy guard violates this: after
`addAction("shoot", 0)` and a mousedown for button 0 the button's entry is
recorded as pressed, yet `isActionPressed("shoot")` returns `false` and
`actionPress("shoot")` is a no-op, because the binding `0` is falsy. -/
theorem c1_zero_binding_treated_as_unbound :
    ((PixiInputMap.new.addAction "shoot" (.num 0)).keyOrMouseButtonDownListener
        (.mouse 0)).isKeyPressed "0" = some true
    ∧ ((PixiInputMap.new.addAction "shoot" (.num 0)).keyOrMouseButtonDownListener
        (.mouse 0)).isActionPressed "shoot" = false
    ∧ (PixiInputMap.new.addAction "shoot" (.num 0)).actionPress "shoot"
        = PixiInputMap.new.addAction "shoot" (.num 0) := by
  decide

/-- Claim C2, counterexample: recording a press of mouse button 0 changes
the reported state of the key label `"0"` from never-observed to pressed,
so the two identifier domains do collide in the pressed-state map. -/
theorem c2_mouse_key_collision_counterexample :
    (PixiInputMap.new.keyOrMouseButtonDownListener (.mouse 0)).isKeyPressed "0"
      = some true
    ∧ PixiInputMap.new.isKeyPressed "0" = none := by
  decide

/-- Claim C2, amended: both identifier domains share one string-keyed map
after numeric-to-string coercion. Pressing mouse button `b` sets exactly
the entry keyed by `b`'s decimal string — so it changes the reported state
of the key label equal to that string and of no other key label — and a
key press changes a mouse-button query exactly when the key label is the
button's decimal string. -/
theorem c2_pressed_map_single_string_keyed (st : PixiInputMap) (b : Nat)
    (s : String) (h : s ≠ toString b) :
    (st.keyOrMouseButtonDownListener (.mouse b)).isKeyPressed (toString b)
      = some true
    ∧ (st.keyOrMouseButtonDownListener (.mouse b)).isKeyPressed s
      = st.isKeyPressed s
    ∧ (st.keyOrMouseButtonDownListener (.keyboard s)).isMouseButtonPressed b
      = st.isMouseButtonPressed b
    ∧ (st.keyOrMouseButtonDownListener
        (.keyboard (toString b))).isMouseButtonPressed b = some true := by
  refine ⟨?_, ?_, ?_, ?_⟩
  · exact objGet_objSet_self st.keys (toString b) true
  · exact objGet_objSet_ne st.keys (toString b) s true h
  · exact objGet_objSet_ne st.keys s (toString b) true (Ne.symm h)
  · exact objGet_objSet_self st.keys (toString b) true

/-- Claim C2 witness: the amended statement at `b = 0`, `s = "a"`. -/
theorem c2_pressed_map_single_string_keyed_witness :
    ("a" ≠ toString 0)
    ∧ ((PixiInputMap.new.keyOrMouseButtonDownListener
          (.mouse 0)).isKeyPressed (toString 0) = some true
      ∧ (PixiInputMap.new.keyOrMouseButtonDownListener
          (.mouse 0)).isKeyPressed "a" = PixiInputMap.new.isKeyPressed "a"
      ∧ (PixiInputMap.new.keyOrMouseButtonDownListener
          (.keyboard "a")).isMouseButtonPressed 0
          = PixiInputMap.new.isMouseButtonPressed 0
      ∧ (PixiInputMap.new.keyOrMouseButtonDownListener
          (.keyboard (toString 0))).isMouseButtonPressed 0 = some true) :=
  ⟨by decide, c2_pressed_map_single_string_keyed PixiInputMap.new 0 "a"
    (by decide)⟩

/-- Claim C3, counterexample: processing a down event for the key-label
identifier `"1"` changes the entry reported for the distinct mouse-button
identifier `1` from never-observed to pressed, so other identifiers'
entries are not always unchanged. -/
theorem c3_cross_domain_entry_changed :
    PixiInputMap.new.isMouseButtonPressed 1 = none
    ∧ (PixiInputMap.new.keyOrMouseButtonDownListener
        (.keyboard "1")).isMouseButtonPressed 1 = some true := by
  decide

/-- Claim C3, amended: a down event for identifier `k` followed by a query
of `k` reports pressed, a subsequent up event makes the query report
not pressed, and another identifier's entry is unchanged provided its
stored string key differs from `k`'s (a key label equal to a button's
decimal string shares that button's entry). -/
theorem c3_down_up_roundtrip (st : PixiInputMap) (e e' : InputEvent)
    (h : e'.storedKey ≠ e.storedKey) :
    e.query (st.keyOrMouseButtonDownListener e) = some true
    ∧ e.query
        ((st.keyOrMouseButtonDownListener e).keyOrMouseButtonUpListener e)
      = some false
    ∧ e'.query (st.keyOrMouseButtonDownListener e) = e'.query st
    ∧ e'.query (st.keyOrMouseButtonUpListener e) = e'.query st := by
  refine ⟨?_, ?_, ?_, ?_⟩
  · rw [InputEvent.query_eq_objGet]
    exact objGet_objSet_self st.keys e.storedKey true
  · rw [InputEvent.query_eq_objGet]
    exact objGet_objSet_self (objSet st.keys e.storedKey true) e.storedKey
      false
  · rw [InputEvent.query_eq_objGet, InputEvent.query_eq_objGet]
    exact objGet_objSet_ne st.keys e.storedKey e'.storedKey true h
  · rw [InputEvent.query_eq_objGet, InputEvent.query_eq_objGet]
    exact objGet_objSet_ne st.keys e.storedKey e'.storedKey false h

/-- Claim C3 witness: the amended statement at the keyboard event for
`"Space"` and the mouse event for button 0. -/
theorem c3_down_up_roundtrip_witness :
    (InputEvent.mouse 0).storedKey ≠ (InputEvent.keyboard "Space").storedKey
    ∧ ((InputEvent.keyboard "Space").query
        (PixiInputMap.new.keyOrMouseButtonDownListener (.keyboard "Space"))
        = some true
      ∧ (InputEvent.keyboard "Space").query
          ((PixiInputMap.new.keyOrMouseButtonDownListener
            (.keyboard "Space")).keyOrMouseButtonUpListener
            (.keyboard "Space")) = some false
      ∧ (InputEvent.mouse 0).query
          (PixiInputMap.new.keyOrMouseButtonDownListener (.keyboard "Space"))
          = (InputEvent.mouse 0).query PixiInputMap.new
      ∧ (InputEvent.mouse 0).query
          (PixiInputMap.new.keyOrMouseButtonUpListener (.keyboard "Space"))
          = (InputEvent.mouse 0).query PixiInputMap.new) :=
  ⟨by decide, c3_down_up_roundtrip PixiInputMap.new (.keyboard "Space")
    (.mouse 0) (by decide)⟩

/-- Claim C4: `stop` empties the pressed-state object — afterwards every
raw or action query reports not-pressed and `isAnythingPressed` is
`false` — while the `actions` object is exactly unchanged. -/
theorem c4_stop_clears_keys_not_actions (st : PixiInputMap) :
    st.stop.keys = []
    ∧ st.stop.actions = st.actions
    ∧ st.stop.isAnythingPressed = false
    ∧ (∀ k, st.stop.isKeyPressed k = none)
    ∧ (∀ b, st.stop.isMouseButtonPressed b = none)
    ∧ (∀ n, st.stop.isActionPressed n = false) := by
  refine ⟨rfl, rfl, rfl, fun k => rfl, fun b => rfl, fun n => ?_⟩
  unfold PixiInputMap.isActionPressed
  cases h : st.stop.getActionKeyOrMouseButton n with
  | none => rfl
  | some v =>
    by_cases hv : v.truthy <;> simp [hv, PixiInputMap.stop, objGet]

/-- Claim C5: for an action name with no binding in the `actions` object,
`actionPress` and `actionRelease` are no-ops leaving the whole state
unchanged, and `isActionPressed` returns `false`. -/
theorem c5_unbound_action_noop (st : PixiInputMap) (name : String)
    (h : objGet st.actions name = none) :
    st.actionPress name = st
    ∧ st.actionRelease name = st
    ∧ st.isActionPressed name = false := by
  unfold PixiInputMap.actionPress PixiInputMap.actionRelease
    PixiInputMap.isActionPressed PixiInputMap.getActionKeyOrMouseButton
  rw [h]
  exact ⟨rfl, rfl, rfl⟩

/-- Claim C5 witness: the statement at a fresh instance and the never-added
action name `"jump"`. -/
theorem c5_unbound_action_noop_witness :
    objGet PixiInputMap.new.actions "jump" = none
    ∧ (PixiInputMap.new.actionPress "jump" = PixiInputMap.new
      ∧ PixiInputMap.new.actionRelease "jump" = PixiInputMap.new
      ∧ PixiInputMap.new.isActionPressed "jump" = false) :=
  ⟨rfl, c5_unbound_action_noop PixiInputMap.new "jump" rfl⟩

/-- Claim C6: in every reachable state the `actions` object holds at most
one binding per name; `addAction` inserts or silently overwrites the single
binding for its name and leaves every other name's binding unchanged; and
no other operation modifies the `actions` object. -/
theorem c6_actions_single_binding (st : PixiInputMap) (n n' : String)
    (v : KeyOrButton) (e : InputEvent) (h : Reachable st) (hne : n' ≠ n) :
    (st.actions.map Prod.fst).Nodup
    ∧ objGet (st.addAction n v).actions n = some v
    ∧ objGet (st.addAction n v).actions n' = objGet st.actions n'
    ∧ (st.keyOrMouseButtonDownListener e).actions = st.actions
    ∧ (st.keyOrMouseButtonUpListener e).actions = st.actions
    ∧ st.stop.actions = st.actions
    ∧ (st.actionPress n).actions = st.actions
    ∧ (st.actionRelease n).actions = st.actions := by
  refine ⟨reachable_actions_nodup st h, ?_, ?_, rfl, rfl, rfl,
    actions_actionPress st n, actions_actionRelease st n⟩
  · exact objGet_objSet_self st.actions n v
  · exact objGet_objSet_ne st.actions n n' v hne

/-- Claim C6 witness: the statement at a fresh instance with the names
`"jump"` and `"shoot"`. -/
theorem c6_actions_single_binding_witness :
    Reachable PixiInputMap.new
    ∧ ("shoot" : String) ≠ "jump"
    ∧ ((PixiInputMap.new.actions.map Prod.fst).Nodup
      ∧ objGet (PixiInputMap.new.addAction "jump" (.str "Space")).actions
          "jump" = some (.str "Space")
      ∧ objGet (PixiInputMap.new.addAction "jump" (.str "Space")).actions
          "shoot" = objGet PixiInputMap.new.actions "shoot"
      ∧ (PixiInputMap.new.keyOrMouseButtonDownListener
          (.keyboard "a")).actions = PixiInputMap.new.actions
      ∧ (PixiInputMap.new.keyOrMouseButtonUpListener
          (.keyboard "a")).actions = PixiInputMap.new.actions
      ∧ PixiInputMap.new.stop.actions = PixiInputMap.new.actions
      ∧ (PixiInputMap.new.actionPress "jump").actions
          = PixiInputMap.new.actions
      ∧ (PixiInputMap.new.actionRelease "jump").actions
          = PixiInputMap.new.actions) :=
  ⟨Reachable.init, by decide,
    c6_actions_single_binding PixiInputMap.new "jump" "shoot" (.str "Space")
      (.keyboard "a") Reachable.init (by decide)⟩

/-- Claim C7: `isAnythingPressed` returns `true` exactly when at least one
entry of the pressed-state object holds `true`; in particular it is
`false` when the object is empty or every entry is `false`. -/
theorem c7_isAnythingPressed_iff (st : PixiInputMap) :
    st.isAnythingPressed = true ↔ ∃ p ∈ st.keys, p.2 = true := by
  simp [PixiInputMap.isAnythingPressed, List.any_eq_true]

/-- Claim C8: for a bound action name, `actionPress` followed by
`actionRelease` leaves `isActionPressed` reporting `false` — the manual
press and release operations are symmetric. -/
theorem c8_press_release_symmetric (st : PixiInputMap) (name : String)
    (h : (objGet st.actions name).isSome = true) :
    ((st.actionPress name).actionRelease name).isActionPressed name
      = false := by
  rcases Option.isSome_iff_exists.1 h with ⟨v, hv⟩
  by_cases ht : v.truthy
  · simp only [PixiInputMap.actionPress, PixiInputMap.actionRelease,
      PixiInputMap.isActionPressed, PixiInputMap.getActionKeyOrMouseButton,
      hv, ht, if_true]
    simp [objGet_objSet_self, hv, ht]
  · simp only [PixiInputMap.actionPress, PixiInputMap.actionRelease,
      PixiInputMap.isActionPressed, PixiInputMap.getActionKeyOrMouseButton,
      hv, ht, if_false]
    simp [hv, ht]

/-- Claim C8 witness: the statement with `"jump"` bound to `"Space"`. -/
theorem c8_press_release_symmetric_witness :
    (objGet (PixiInputMap.new.addAction "jump" (.str "Space")).actions
      "jump").isSome = true
    ∧ PixiInputMap.isActionPressed
        (((PixiInputMap.new.addAction "jump"
          (.str "Space")).actionPress "jump").actionRelease "jump")
        "jump" = false :=
  ⟨by decide, c8_press_release_symmetric
    (PixiInputMap.new.addAction "jump" (.str "Space")) "jump" (by decide)⟩

/-- Claim C9: the four query operations, with the mutable instance
threaded through explicitly, return their pure result and leave the state
— both the pressed-state object and the `actions` object — exactly
unchanged. -/
theorem c9_queries_pure (st : PixiInputMap) (name key : String)
    (button : Nat) :
    PixiInputMap.isActionPressedM st name = (st.isActionPressed name, st)
    ∧ PixiInputMap.isKeyPressedM st key = (st.isKeyPressed key, st)
    ∧ PixiInputMap.isMouseButtonPressedM st button
      = (st.isMouseButtonPressed button, st)
    ∧ PixiInputMap.isAnythingPressedM st = (st.isAnythingPressed, st) := by
  refine ⟨?_, rfl, rfl, rfl⟩
  unfold PixiInputMap.isActionPressedM PixiInputMap.isActionPressed
  cases h : st.getActionKeyOrMouseButton name with
  | none => rfl
  | some v => by_cases ht : v.truthy <;> simp [ht]

/-- Claim C10: querying a mouse button reads the same string-keyed entry
as querying the key label equal to the button's decimal string, so the two
queries always agree. -/
theorem c10_mouse_query_eq_key_query (st : PixiInputMap) (button : Nat) :
    st.isMouseButtonPressed button = st.isKeyPressed (toString button) :=
  rfl
